import Mathlib

/-
Verification of `pkg/settings/duration.go` (cluster setting of kind
"duration"): an atomically stored, validated `time.Duration` value with a
change-notification hook, default handling and registration entry points.

Embedding conventions:
- `time.Duration` is an `int64` count of nanoseconds; no arithmetic is
  performed on it anywhere in the file, so it is modelled as `Int`.
- A Go `error` value is modelled by its message (`GoError := String`);
  `errors.Errorf`/`errors.Wrap` of the external pkg/errors library become
  string formatting, per the spec ("error-type formatting/wrapping utilities
  — treated as a generic construct-a-descriptive-error capability").
- The mutation `(d *DurationSetting).set` is modelled as a pure function
  from the receiver to a `SetResult` holding the updated receiver, the
  returned error, and whether the attached change hook was invoked.
- A Go `panic` is modelled as `Except.error`.
-/

/-- A Go `error`, modelled by its message string. -/
abbrev GoError := String

/-- Modelled from the spec: the human-readable rendering of a duration used
when one is interpolated into an error message (`%s` on a `time.Duration`,
Go standard library, external to this repository; the spec treats duration
string encoding as an opaque injected encoder). Modelled as the signed
nanosecond count followed by the unit tag `ns`. -/
def formatDuration (v : Int) : String :=
  toString v ++ "ns"

/-- Modelled from the spec: `EncodeDuration` (the injected duration-to-string
encoder, not under src/; the spec treats it as an opaque external
collaborator used only by `String()`). -/
def EncodeDuration (v : Int) : String :=
  formatDuration v

/-- The `DurationSetting` struct of duration.go.

The fields `key`, `description` and `onChange` belong to the embedded
`common` struct, which is not under src/; they are modelled from the spec:
`key` and `description` are assigned at registration and immutable
thereafter, and `onChange` records whether a change callback is attached
(`ChangeNotifier`: at most one retained callback; its body is opaque
side-effecting code, so only its presence is modelled). -/
structure DurationSetting where
  key : String
  description : String
  onChange : Bool
  defaultValue : Int
  v : Int
  validateFn : Option (Int → Option GoError)

/-- Method `Get` retrieves the duration value in the setting
(`time.Duration(atomic.LoadInt64(&d.v))`). -/
def DurationSetting.Get (d : DurationSetting) : Int :=
  d.v

/-- Method `Typ` returns the short (1 char) string denoting the type of setting. -/
def DurationSetting.Typ (_ : DurationSetting) : String :=
  "d"

/-- Method `Validate` checks that a value conforms with the validation function:
it returns `validateFn`'s error when `validateFn` is present and rejects
the value, and `nil` otherwise. -/
def DurationSetting.Validate (d : DurationSetting) (v : Int) : Option GoError :=
  match d.validateFn with
  | some f => f v
  | none => none

/-- The outcome of one call to the mutating method `set`: the receiver after
the call, the returned error, and whether the attached change callback was
invoked (`d.changed()` runs the callback exactly when one is attached;
`changed` lives on the `common` struct, modelled from the spec). -/
structure SetResult where
  setting : DurationSetting
  err : Option GoError
  hookFired : Bool

/-- Method `set`: validate; on failure return the error with the stored state
untouched. On success atomically swap the stored representation with the
new one (`atomic.SwapInt64(&d.v, v)` returns the previous value) and invoke
the change hook exactly when the previous representation differs from the
new one. -/
def DurationSetting.set (d : DurationSetting) (v : Int) : SetResult :=
  match d.Validate v with
  | some err => { setting := d, err := some err, hookFired := false }
  | none =>
    let old := d.v
    let d2 : DurationSetting := { d with v := v }
    if old ≠ v then
      { setting := d2, err := none, hookFired := d.onChange }
    else
      { setting := d2, err := none, hookFired := false }

/-- Method `setToDefault` calls `set(d.defaultValue)` and panics (modelled as
`Except.error`) if it returns an error. -/
def DurationSetting.setToDefault (d : DurationSetting) : Except GoError SetResult :=
  let r := d.set d.defaultValue
  match r.err with
  | some e => Except.error e
  | none => Except.ok r

/-- Modelled from the spec: `register` (the process-wide registry, not under
src/). It records the setting under its key with its description and
establishes the freshly registered setting's initial state
`currentValue = defaultValue` (spec §4.1: `Get` "returns either the value as
of some prior completed set, or the default if no set has ever succeeded";
§8 scenario: immediately after registration `Get() = 1s`). A failure of that
initial `setToDefault` propagates as a fatal construction error. -/
def register (key desc : String) (s : DurationSetting) : Except GoError DurationSetting :=
  match ({ s with key := key, description := desc } : DurationSetting).setToDefault with
  | Except.ok r => Except.ok r.setting
  | Except.error e => Except.error e

/-- Function `RegisterValidatedDurationSetting` defines a new setting with type
duration: when a validator is supplied whose check of the default fails, it
panics with `errors.Wrap(err, "invalid default")` (modelled as
`Except.error`); otherwise it constructs the setting and registers it. -/
def RegisterValidatedDurationSetting (key desc : String) (defaultValue : Int)
    (validateFn : Option (Int → Option GoError)) : Except GoError DurationSetting :=
  let mk : DurationSetting :=
    { key := "", description := "", onChange := false,
      defaultValue := defaultValue, v := 0, validateFn := validateFn }
  match validateFn with
  | some f =>
    match f defaultValue with
    | some err => Except.error ("invalid default: " ++ err)
    | none => register key desc mk
  | none => register key desc mk

/-- Function `RegisterDurationSetting` defines a new setting with type duration
(no validator). -/
def RegisterDurationSetting (key desc : String) (defaultValue : Int) :
    Except GoError DurationSetting :=
  RegisterValidatedDurationSetting key desc defaultValue none

/-- Function `RegisterNonNegativeDurationSetting` defines a new setting with type
duration, with the built-in validator that rejects every negative value with
`errors.Errorf("cannot set %s to a negative duration: %s", key, v)` and
accepts every other value. -/
def RegisterNonNegativeDurationSetting (key desc : String) (defaultValue : Int) :
    Except GoError DurationSetting :=
  RegisterValidatedDurationSetting key desc defaultValue
    (some fun v =>
      if v < 0 then
        some ("cannot set " ++ key ++ " to a negative duration: " ++ formatDuration v)
      else
        none)

/-- Method `OnChange` registers a callback to be called when the setting changes
(`setOnChange` on the `common` struct, modelled from the spec: the one
retained callback is replaced; only its presence is modelled). -/
def DurationSetting.OnChange (d : DurationSetting) : DurationSetting :=
  { d with onChange := true }

/-- Method `String` returns `EncodeDuration(d.Get())`. -/
def DurationSetting.String (d : DurationSetting) :=
  EncodeDuration d.Get

/-- One client-visible operation on a registered setting, for stating
properties over arbitrary operation sequences. -/
inductive Op where
  | getOp : Op
  | setOp : Int → Op
  | setToDefaultOp : Op
deriving DecidableEq

/-- The state of the setting after one operation. `Get` does not mutate.
`setToDefault` leaves the state of a failed inner `set` unchanged and
panics, so its post-state is the post-state of `set(defaultValue)` in
either case. -/
def DurationSetting.step (d : DurationSetting) : Op → DurationSetting
  | Op.getOp => d
  | Op.setOp v => (d.set v).setting
  | Op.setToDefaultOp => (d.set d.defaultValue).setting

/-- The state of the setting after a sequence of operations. -/
def DurationSetting.run (d : DurationSetting) : List Op → DurationSetting
  | [] => d
  | op :: rest => (d.step op).run rest

/-- The state of the stored slot after a writer has completed a list of
`set` calls, one atomic swap per element. -/
def DurationSetting.runSets (d : DurationSetting) : List Int → DurationSetting
  | [] => d
  | v :: rest => (d.set v).setting.runSets rest

/-- Whether the character list `sub` occurs contiguously at the head of `s`. -/
def leadsWith : List Char → List Char → Bool
  | _, [] => true
  | [], _ :: _ => false
  | a :: as, b :: bs => a == b && leadsWith as bs

/-- Whether the character list `sub` occurs contiguously anywhere in `s`. -/
def hasSub : List Char → List Char → Bool
  | [], sub => sub.isEmpty
  | a :: as, sub => leadsWith (a :: as) sub || hasSub as sub

/-- Whether the string `sub` occurs as a contiguous substring of `s`. -/
def strContains (s sub : String) : Bool :=
  hasSub s.data sub.data

/-- Go `time.Second`, as a count of nanoseconds. -/
def oneSecond : Int := 1000000000

/-- A concrete validator used to instantiate the theorems below: it rejects
negative values with a fixed message that mentions neither key nor value. -/
def negValidator : Int → Option GoError :=
  fun w => if w < 0 then some "neg" else none

/-- The setting produced by
`RegisterValidatedDurationSetting "k" "dc" 7 (some negValidator)`. -/
def testReject : DurationSetting :=
  { key := "k", description := "dc", onChange := false,
    defaultValue := 7, v := 7, validateFn := some negValidator }

/-- The setting produced by
`RegisterNonNegativeDurationSetting "srv.timeout" "desc" oneSecond`. -/
def testNonneg : DurationSetting :=
  { key := "srv.timeout", description := "desc", onChange := false,
    defaultValue := oneSecond, v := oneSecond,
    validateFn := some fun v =>
      if v < 0 then
        some ("cannot set " ++ "srv.timeout" ++ " to a negative duration: " ++ formatDuration v)
      else
        none }

/-- The same non-negative setting with a change callback attached. -/
def testHooked : DurationSetting :=
  testNonneg.OnChange

/-- A caller-supplied validator whose error mentions neither the key nor the
rejected value. -/
def opaqueValidator : Int → Option GoError :=
  fun w => if w = 5 then some "bad" else none

/-- The setting produced by
`RegisterValidatedDurationSetting "mykey" "dc" 0 (some opaqueValidator)`. -/
def opaqueSetting : DurationSetting :=
  { key := "mykey", description := "dc", onChange := false,
    defaultValue := 0, v := 0, validateFn := some opaqueValidator }

/-- A rejected `set` call returns the validator's error unmodified, leaves
the receiver untouched, and does not call `changed`. -/
theorem set_of_rejected (d : DurationSetting) (v : Int) (e : GoError)
    (h : d.Validate v = some e) :
    d.set v = { setting := d, err := some e, hookFired := false } := by
  simp [DurationSetting.set, h]

/-- An accepted `set` call stores the new value. -/
theorem set_setting_of_accepted (d : DurationSetting) (v : Int)
    (h : d.Validate v = none) :
    (d.set v).setting = { d with v := v } := by
  simp only [DurationSetting.set, h]
  split <;> rfl

/-- An accepted `set` call returns no error. -/
theorem set_err_of_accepted (d : DurationSetting) (v : Int)
    (h : d.Validate v = none) :
    (d.set v).err = none := by
  simp only [DurationSetting.set, h]
  split <;> rfl

/-- An accepted `set` call invokes the change hook exactly when a hook is
attached and the previously stored representation differs from the new one. -/
theorem set_hookFired_of_accepted (d : DurationSetting) (v : Int)
    (h : d.Validate v = none) :
    ((d.set v).hookFired = true ↔ (d.onChange = true ∧ d.v ≠ v)) := by
  simp only [DurationSetting.set, h]
  by_cases hne : d.v ≠ v
  · simp [hne]
  · simp [hne]

/-- Updating the stored slot does not change how values validate. -/
theorem validate_update (d : DurationSetting) (w x : Int) :
    ({ d with v := w } : DurationSetting).Validate x = d.Validate x :=
  rfl

/-- The receiver returned by `set` keeps every field except the stored slot. -/
theorem set_setting_meta (d : DurationSetting) (v : Int) :
    (d.set v).setting.key = d.key ∧
    (d.set v).setting.description = d.description ∧
    (d.set v).setting.onChange = d.onChange ∧
    (d.set v).setting.defaultValue = d.defaultValue ∧
    (d.set v).setting.validateFn = d.validateFn := by
  cases h : d.Validate v with
  | some e => rw [set_of_rejected d v e h]; exact ⟨rfl, rfl, rfl, rfl, rfl⟩
  | none => rw [set_setting_of_accepted d v h]; exact ⟨rfl, rfl, rfl, rfl, rfl⟩

/-- When the default validates, `setToDefault` does not panic: it returns
the result of `set(defaultValue)`. -/
theorem setToDefault_ok_of (d : DurationSetting)
    (h : d.Validate d.defaultValue = none) :
    d.setToDefault = Except.ok (d.set d.defaultValue) := by
  simp only [DurationSetting.setToDefault, set_err_of_accepted d d.defaultValue h]

/-- Computation of `register` when the setting's default validates: the
setting comes back with its key and description filled in and the stored
slot initialized to the default. -/
theorem register_eq (key desc : String) (s : DurationSetting)
    (h : ({ s with key := key, description := desc } : DurationSetting).Validate
           s.defaultValue = none) :
    register key desc s =
      Except.ok { s with key := key, description := desc, v := s.defaultValue } := by
  have h' : ({ s with key := key, description := desc } : DurationSetting).Validate
      ({ s with key := key, description := desc } : DurationSetting).defaultValue = none := h
  unfold register
  rw [setToDefault_ok_of _ h']
  show Except.ok (({ s with key := key, description := desc } : DurationSetting).set
      ({ s with key := key, description := desc } : DurationSetting).defaultValue).setting = _
  rw [set_setting_of_accepted _ _ h']

/-- Computation of `RegisterValidatedDurationSetting` when the supplied
validator (if any) accepts the default. -/
theorem registerValidated_ok (key desc : String) (dv : Int)
    (vf : Option (Int → Option GoError))
    (hvf : ∀ f, vf = some f → f dv = none) :
    RegisterValidatedDurationSetting key desc dv vf =
      Except.ok { key := key, description := desc, onChange := false,
                  defaultValue := dv, v := dv, validateFn := vf } := by
  cases vf with
  | none =>
    simp only [RegisterValidatedDurationSetting]
    have hh := register_eq key desc
      { key := "", description := "", onChange := false,
        defaultValue := dv, v := 0, validateFn := none } rfl
    rw [hh]
  | some f =>
    have hf : f dv = none := hvf f rfl
    simp only [RegisterValidatedDurationSetting, hf]
    have hh := register_eq key desc
      { key := "", description := "", onChange := false,
        defaultValue := dv, v := 0, validateFn := some f } hf
    rw [hh]

/-- Inversion of a successful registration: the validator (if any) accepted
the default, and the returned setting is fully determined. -/
theorem registerValidated_ok_elim (key desc : String) (dv : Int)
    (vf : Option (Int → Option GoError)) (d : DurationSetting)
    (h : RegisterValidatedDurationSetting key desc dv vf = Except.ok d) :
    (∀ f, vf = some f → f dv = none) ∧
    d = { key := key, description := desc, onChange := false,
          defaultValue := dv, v := dv, validateFn := vf } := by
  cases vf with
  | none =>
    rw [registerValidated_ok key desc dv none (fun f hf => Option.noConfusion hf)] at h
    exact ⟨fun f hf => Option.noConfusion hf, (Except.ok.inj h).symm⟩
  | some f =>
    cases hf : f dv with
    | some e =>
      exfalso
      simp only [RegisterValidatedDurationSetting, hf] at h
      cases h
    | none =>
      rw [registerValidated_ok key desc dv (some f)
          (fun g hg => (Option.some.inj hg) ▸ hf)] at h
      exact ⟨fun g hg => (Option.some.inj hg) ▸ hf, (Except.ok.inj h).symm⟩

/-- The invariant maintained by a registered setting: the stored slot and
the default both satisfy the validator. -/
def SettingInv (d : DurationSetting) : Prop :=
  d.Validate d.v = none ∧ d.Validate d.defaultValue = none

/-- One operation preserves the invariant. -/
theorem step_inv (d : DurationSetting) (op : Op) (h : SettingInv d) :
    SettingInv (d.step op) := by
  cases op with
  | getOp => exact h
  | setOp v =>
    show SettingInv (d.set v).setting
    cases hv : d.Validate v with
    | some e => rw [set_of_rejected d v e hv]; exact h
    | none =>
      rw [set_setting_of_accepted d v hv]
      exact ⟨hv, h.2⟩
  | setToDefaultOp =>
    show SettingInv (d.set d.defaultValue).setting
    rw [set_setting_of_accepted d d.defaultValue h.2]
    exact ⟨h.2, h.2⟩

/-- A whole operation sequence preserves the invariant. -/
theorem run_inv (d : DurationSetting) (ops : List Op) (h : SettingInv d) :
    SettingInv (d.run ops) := by
  induction ops generalizing d with
  | nil => exact h
  | cons op rest ih => exact ih (d.step op) (step_inv d op h)

/-- A freshly registered setting satisfies the invariant, stores its default
and carries the validator it was registered with. -/
theorem registered_inv (key desc : String) (dv : Int)
    (vf : Option (Int → Option GoError)) (d : DurationSetting)
    (h : RegisterValidatedDurationSetting key desc dv vf = Except.ok d) :
    SettingInv d ∧ d.Get = dv ∧ d.defaultValue = dv ∧ d.validateFn = vf := by
  obtain ⟨hvf, hd⟩ := registerValidated_ok_elim key desc dv vf d h
  subst hd
  have hval : DurationSetting.Validate
      { key := key, description := desc, onChange := false,
        defaultValue := dv, v := dv, validateFn := vf } dv = none := by
    cases hv : vf with
    | none => rfl
    | some f =>
      show f dv = none
      exact hvf f hv
  exact ⟨⟨hval, hval⟩, rfl, rfl, rfl⟩

/-- Operations never touch the validator or the default. -/
theorem run_keeps_fields (d : DurationSetting) (ops : List Op) :
    (d.run ops).validateFn = d.validateFn ∧
    (d.run ops).defaultValue = d.defaultValue := by
  induction ops generalizing d with
  | nil => exact ⟨rfl, rfl⟩
  | cons op rest ih =>
    have hstep : (d.step op).validateFn = d.validateFn ∧
        (d.step op).defaultValue = d.defaultValue := by
      cases op with
      | getOp => exact ⟨rfl, rfl⟩
      | setOp v =>
        exact ⟨(set_setting_meta d v).2.2.2.2, (set_setting_meta d v).2.2.2.1⟩
      | setToDefaultOp =>
        exact ⟨(set_setting_meta d d.defaultValue).2.2.2.2,
          (set_setting_meta d d.defaultValue).2.2.2.1⟩
    obtain ⟨h1, h2⟩ := ih (d.step op)
    exact ⟨h1.trans hstep.1, h2.trans hstep.2⟩

/-- A sequence of operations in which every `set` is rejected by the
validator and `setToDefault` never occurs leaves the setting untouched. -/
theorem run_fixed (d : DurationSetting) (ops : List Op)
    (hset : ∀ v, Op.setOp v ∈ ops → (d.Validate v).isSome = true)
    (hnodef : Op.setToDefaultOp ∉ ops) :
    d.run ops = d := by
  induction ops with
  | nil => rfl
  | cons op rest ih =>
    have hrest : d.run (op :: rest) = (d.step op).run rest := rfl
    cases op with
    | getOp =>
      rw [hrest]
      show d.run rest = d
      exact ih (fun v hv => hset v (List.mem_cons_of_mem _ hv))
        (fun hv => hnodef (List.mem_cons_of_mem _ hv))
    | setOp v =>
      have hv := hset v (List.mem_cons_self _ _)
      obtain ⟨e, he⟩ := Option.isSome_iff_exists.mp hv
      have hstep : d.step (Op.setOp v) = d := by
        show (d.set v).setting = d
        rw [set_of_rejected d v e he]
      rw [hrest, hstep]
      exact ih (fun w hw => hset w (List.mem_cons_of_mem _ hw))
        (fun hw => hnodef (List.mem_cons_of_mem _ hw))
    | setToDefaultOp =>
      exact absurd (List.mem_cons_self _ _) hnodef

/-- After any prefix of a writer's `set` sequence, the stored value is the
initial one or one of the values passed to `set`. -/
theorem runSets_mem (d : DurationSetting) (pre : List Int) :
    (d.runSets pre).Get = d.Get ∨ (d.runSets pre).Get ∈ pre := by
  induction pre generalizing d with
  | nil => exact Or.inl rfl
  | cons v rest ih =>
    show ((d.set v).setting.runSets rest).Get = d.Get ∨
      ((d.set v).setting.runSets rest).Get ∈ v :: rest
    cases hv : d.Validate v with
    | some e =>
      have hs : (d.set v).setting = d := by rw [set_of_rejected d v e hv]
      rw [hs]
      cases ih d with
      | inl h => exact Or.inl h
      | inr h => exact Or.inr (List.mem_cons_of_mem v h)
    | none =>
      have hs : (d.set v).setting = { d with v := v } := set_setting_of_accepted d v hv
      rw [hs]
      cases ih { d with v := v } with
      | inl h => exact Or.inr (by rw [h]; exact List.mem_cons_self v rest)
      | inr h => exact Or.inr (List.mem_cons_of_mem v h)

/-- C2: For every duration v accepted by the setting's validator
(validateFn(v) returns no error, or validateFn is absent), set(v) returns
success and a subsequent Get() returns exactly v. -/
theorem set_accepted_succeeds_and_get_returns_it (d : DurationSetting) (v : Int)
    (hv : d.Validate v = none) :
    (d.set v).err = none ∧ (d.set v).setting.Get = v := by
  refine ⟨set_err_of_accepted d v hv, ?_⟩
  rw [set_setting_of_accepted d v hv]
  rfl

/-- Witness for C2 at the non-negative setting and v = 5. -/
theorem set_accepted_succeeds_and_get_returns_it_witness :
    (testNonneg.set 5).err = none ∧ (testNonneg.set 5).setting.Get = 5 :=
  set_accepted_succeeds_and_get_returns_it testNonneg 5 rfl

/-- C3: For every duration v rejected by the setting's validator, set(v)
returns the validation error and leaves the stored value completely
unchanged: Get() and String() return the same results after the failed set
as before it, and the change hook is not invoked. -/
theorem set_rejected_returns_error_and_leaves_unchanged (d : DurationSetting)
    (v : Int) (e : GoError) (hv : d.Validate v = some e) :
    (d.set v).err = some e ∧ (d.set v).setting = d ∧
    (d.set v).hookFired = false ∧
    (d.set v).setting.Get = d.Get ∧ (d.set v).setting.String = d.String := by
  rw [set_of_rejected d v e hv]
  exact ⟨rfl, rfl, rfl, rfl, rfl⟩

/-- Witness for C3 at the non-negative setting and v = -1. -/
theorem set_rejected_returns_error_and_leaves_unchanged_witness :
    (testNonneg.set (-1)).err = some ("cannot set " ++ "srv.timeout"
      ++ " to a negative duration: " ++ formatDuration (-1)) ∧
    (testNonneg.set (-1)).setting = testNonneg ∧
    (testNonneg.set (-1)).hookFired = false ∧
    (testNonneg.set (-1)).setting.Get = testNonneg.Get ∧
    (testNonneg.set (-1)).setting.String = testNonneg.String :=
  set_rejected_returns_error_and_leaves_unchanged testNonneg (-1)
    ("cannot set " ++ "srv.timeout" ++ " to a negative duration: " ++ formatDuration (-1)) rfl

/-- C4: On every successful set(v) on a setting with an attached hook, the
change hook is invoked if and only if v's underlying representation differs
from the representation stored immediately before the atomic swap;
consequently calling set(v) twice in a row with the same v invokes the hook
at most once (on the first call), and the second call performs validation
(returning no error) but no notification. -/
theorem hook_fires_iff_representation_differs (d : DurationSetting) (v : Int)
    (hhook : d.onChange = true) (hv : d.Validate v = none) :
    ((d.set v).hookFired = true ↔ d.v ≠ v) ∧
    ((d.set v).setting.set v).err = none ∧
    ((d.set v).setting.set v).hookFired = false := by
  have h1 := set_hookFired_of_accepted d v hv
  have hset := set_setting_of_accepted d v hv
  have hv2 : ({ d with v := v } : DurationSetting).Validate v = none := hv
  refine ⟨?_, ?_, ?_⟩
  · rw [h1, hhook]
    simp
  · rw [hset]
    exact set_err_of_accepted _ v hv2
  · rw [hset]
    have h2 := set_hookFired_of_accepted { d with v := v } v hv2
    cases hb : (({ d with v := v } : DurationSetting).set v).hookFired with
    | false => rfl
    | true => exact absurd rfl (h2.mp hb).2

/-- Witness for C4 at the hook-attached non-negative setting and v = 5. -/
theorem hook_fires_iff_representation_differs_witness :
    ((testHooked.set 5).hookFired = true ↔ testHooked.v ≠ 5) ∧
    ((testHooked.set 5).setting.set 5).err = none ∧
    ((testHooked.set 5).setting.set 5).hookFired = false :=
  hook_fires_iff_representation_differs testHooked 5 rfl rfl

/-- C1: For every DurationSetting created by a registration call on which no
set (and no setToDefault) has ever succeeded — that is, after any sequence
of operations in which every set was rejected by the validator and
setToDefault never ran — Get() returns the setting's defaultValue; in
particular, immediately after registering a setting with default 1 second
and the non-negative validator, Get() returns 1 second. -/
theorem get_returns_default_before_any_successful_set :
    (∀ (key desc : String) (dv : Int) (vf : Option (Int → Option GoError))
        (d : DurationSetting),
      RegisterValidatedDurationSetting key desc dv vf = Except.ok d →
      ∀ ops : List Op,
        (∀ v, Op.setOp v ∈ ops → (d.Validate v).isSome = true) →
        Op.setToDefaultOp ∉ ops →
        (d.run ops).Get = dv) ∧
    (∀ (key desc : String) (d : DurationSetting),
      RegisterNonNegativeDurationSetting key desc oneSecond = Except.ok d →
      d.Get = oneSecond) := by
  constructor
  · intro key desc dv vf d hreg ops hrej hnodef
    rw [run_fixed d ops hrej hnodef]
    exact (registered_inv key desc dv vf d hreg).2.1
  · intro key desc d hreg
    exact (registered_inv key desc oneSecond _ d hreg).2.1

/-- Witness for C1: a rejected set leaves Get at the default 7, and the
freshly registered 1-second non-negative setting reads 1 second. -/
theorem get_returns_default_before_any_successful_set_witness :
    (testReject.run [Op.setOp (-3)]).Get = 7 ∧ testNonneg.Get = oneSecond := by
  constructor
  · refine get_returns_default_before_any_successful_set.1 "k" "dc" 7
      (some negValidator) testReject rfl [Op.setOp (-3)] ?_ (by decide)
    intro v hv
    simp only [List.mem_singleton, Op.setOp.injEq] at hv
    subst hv
    decide
  · exact get_returns_default_before_any_successful_set.2 "srv.timeout" "desc"
      testNonneg rfl

/-- C5: For every DurationSetting with a validator, after every sequence of
Get/set/setToDefault operations starting from registration (including the
state before any set has occurred), the currently stored value satisfies
validateFn: the stored value is never an invalid one. -/
theorem stored_value_always_satisfies_validator (key desc : String) (dv : Int)
    (vf : Option (Int → Option GoError)) (d : DurationSetting)
    (hreg : RegisterValidatedDurationSetting key desc dv vf = Except.ok d)
    (ops : List Op) :
    (d.run ops).Validate ((d.run ops).v) = none :=
  (run_inv d ops (registered_inv key desc dv vf d hreg).1).1

/-- Witness for C5 after a rejected set, an accepted set and a setToDefault. -/
theorem stored_value_always_satisfies_validator_witness :
    ((testReject.run [Op.setOp (-3), Op.setOp 9, Op.setToDefaultOp]).Validate
      ((testReject.run [Op.setOp (-3), Op.setOp 9, Op.setToDefaultOp]).v)) = none :=
  stored_value_always_satisfies_validator "k" "dc" 7 (some negValidator) testReject rfl
    [Op.setOp (-3), Op.setOp 9, Op.setToDefaultOp]

/-- Helper: a supplied validator that rejects the default value makes
`RegisterValidatedDurationSetting` panic with the wrapped error. -/
theorem registerValidated_error (key desc : String) (dv : Int)
    (f : Int → Option GoError) (e : GoError) (he : f dv = some e) :
    RegisterValidatedDurationSetting key desc dv (some f) =
      Except.error ("invalid default: " ++ e) := by
  simp only [RegisterValidatedDurationSetting, he]

/-- C6: For every key, description, default value and validator, if the
validator rejects the default then RegisterValidatedDurationSetting (and
hence RegisterNonNegativeDurationSetting for a negative default) fails
fatally (panics, modelled as Except.error) and never returns a constructed
setting; if the validator accepts the default, registration succeeds. -/
theorem registration_fatal_iff_default_invalid (key desc : String) (dv : Int)
    (f : Int → Option GoError) :
    (∀ e, f dv = some e →
      RegisterValidatedDurationSetting key desc dv (some f) =
        Except.error ("invalid default: " ++ e)) ∧
    (f dv = none →
      ∃ d, RegisterValidatedDurationSetting key desc dv (some f) = Except.ok d) ∧
    (dv < 0 →
      ∃ e, RegisterNonNegativeDurationSetting key desc dv = Except.error e) := by
  refine ⟨?_, ?_, ?_⟩
  · intro e he
    exact registerValidated_error key desc dv f e he
  · intro he
    exact ⟨_, registerValidated_ok key desc dv (some f)
      (fun g hg => (Option.some.inj hg) ▸ he)⟩
  · intro hneg
    refine ⟨"invalid default: " ++ ("cannot set " ++ key
      ++ " to a negative duration: " ++ formatDuration dv), ?_⟩
    refine registerValidated_error key desc dv _ _ ?_
    show (if dv < 0 then some ("cannot set " ++ key
      ++ " to a negative duration: " ++ formatDuration dv) else none) = some _
    rw [if_pos hneg]

/-- Witness for C6: a rejected default of -1 panics, an accepted default of
7 registers. -/
theorem registration_fatal_iff_default_invalid_witness :
    RegisterValidatedDurationSetting "k" "dc" (-1) (some negValidator) =
      Except.error ("invalid default: " ++ "neg") ∧
    (∃ d, RegisterValidatedDurationSetting "k" "dc" 7 (some negValidator) =
      Except.ok d) ∧
    (∃ e, RegisterNonNegativeDurationSetting "k" "dc" (-1) = Except.error e) :=
  ⟨(registration_fatal_iff_default_invalid "k" "dc" (-1) negValidator).1 "neg" rfl,
   (registration_fatal_iff_default_invalid "k" "dc" 7 negValidator).2.1 rfl,
   (registration_fatal_iff_default_invalid "k" "dc" (-1) negValidator).2.2 (by decide)⟩

/-- C7: For every DurationSetting constructed by a registration function
(whose default was therefore validated at construction, with a pure
validateFn that is immutable thereafter), and after any further sequence of
operations, setToDefault() never fails: the internal set(defaultValue) call
returns no error, so the panic branch in setToDefault is unreachable and
setToDefault returns normally. -/
theorem setToDefault_never_fails (key desc : String) (dv : Int)
    (vf : Option (Int → Option GoError)) (d : DurationSetting)
    (hreg : RegisterValidatedDurationSetting key desc dv vf = Except.ok d)
    (ops : List Op) :
    (d.run ops).setToDefault =
      Except.ok ((d.run ops).set (d.run ops).defaultValue) := by
  have hinv := run_inv d ops (registered_inv key desc dv vf d hreg).1
  exact setToDefault_ok_of _ hinv.2

/-- Witness for C7 after a rejected set on the registered setting. -/
theorem setToDefault_never_fails_witness :
    (testReject.run [Op.setOp (-3)]).setToDefault =
      Except.ok ((testReject.run [Op.setOp (-3)]).set
        (testReject.run [Op.setOp (-3)]).defaultValue) :=
  setToDefault_never_fails "k" "dc" 7 (some negValidator) testReject rfl
    [Op.setOp (-3)]

/-- C9: For every duration v, the validator installed by
RegisterNonNegativeDurationSetting returns an error if and only if v is
strictly negative; in particular set(0) succeeds on such a setting (the
zero duration is accepted, not rejected). -/
theorem nonneg_validator_rejects_iff_negative (key desc : String) (dv : Int)
    (d : DurationSetting)
    (hreg : RegisterNonNegativeDurationSetting key desc dv = Except.ok d) :
    (∀ v : Int, (d.Validate v).isSome = true ↔ v < 0) ∧ (d.set 0).err = none := by
  obtain ⟨hvf, hd⟩ := registerValidated_ok_elim key desc dv _ d hreg
  subst hd
  constructor
  · intro v
    show ((if v < 0 then some ("cannot set " ++ key
      ++ " to a negative duration: " ++ formatDuration v) else none).isSome = true) ↔ v < 0
    by_cases hneg : v < 0
    · simp [hneg]
    · simp [hneg]
  · apply set_err_of_accepted
    show (if (0:Int) < 0 then some ("cannot set " ++ key
      ++ " to a negative duration: " ++ formatDuration 0) else none) = none
    rw [if_neg (by decide : ¬ ((0:Int) < 0))]

/-- Witness for C9 at the concrete non-negative setting. -/
theorem nonneg_validator_rejects_iff_negative_witness :
    (∀ v : Int, (testNonneg.Validate v).isSome = true ↔ v < 0) ∧
    (testNonneg.set 0).err = none :=
  nonneg_validator_rejects_iff_negative "srv.timeout" "desc" oneSecond testNonneg rfl

/-- C10: Under the interleaving semantics induced by the atomic slot (one
atomic swap per completed set, one atomic load per Get), any Get that runs
concurrently with one writer issuing a sequence of set calls observes the
slot after some prefix of the completed swaps, and that value is either the
initial value or one of the values passed to set — no reader ever observes
a value outside that set. -/
theorem no_torn_reads (d : DurationSetting) (vs pre suf : List Int)
    (hsplit : vs = pre ++ suf) :
    (d.runSets pre).Get = d.Get ∨ (d.runSets pre).Get ∈ vs := by
  cases runSets_mem d pre with
  | inl h => exact Or.inl h
  | inr h =>
    refine Or.inr ?_
    rw [hsplit]
    exact List.mem_append_left suf h

/-- Witness for C10 at a prefix of a concrete write sequence. -/
theorem no_torn_reads_witness :
    (testNonneg.runSets [5, -1]).Get = testNonneg.Get ∨
    (testNonneg.runSets [5, -1]).Get ∈ [5, -1, 9] :=
  no_torn_reads testNonneg [5, -1, 9] [5, -1] [9] rfl

/-- C8 counterexample: a setting created by RegisterValidatedDurationSetting
with a caller-supplied validator whose error is the bare string "bad". The
error returned by set(5) is exactly that string, which contains neither the
setting's key "mykey" nor the rejected value — refuting the claim that
every error returned by set carries the key and the rejected value for
arbitrary caller-supplied validators. -/
theorem error_from_arbitrary_validator_lacks_key :
    RegisterValidatedDurationSetting "mykey" "dc" 0 (some opaqueValidator) =
      Except.ok opaqueSetting ∧
    (opaqueSetting.set 5).err = some "bad" ∧
    strContains "bad" "mykey" = false ∧
    strContains "bad" (formatDuration 5) = false := by
  refine ⟨rfl, rfl, rfl, by decide⟩

/-- C8 (amended): Every error returned by Validate or set on a setting
created by RegisterNonNegativeDurationSetting carries the setting's key and
the rejected value, in the message
"cannot set <key> to a negative duration: <value>"; for settings created by
RegisterValidatedDurationSetting with an arbitrary caller-supplied
validateFn, set returns the validator's error unmodified. -/
theorem nonneg_error_carries_key_and_value (key desc : String) (dv : Int)
    (d : DurationSetting)
    (hreg : RegisterNonNegativeDurationSetting key desc dv = Except.ok d)
    (v : Int) (hv : v < 0) :
    d.Validate v = some ("cannot set " ++ key ++ " to a negative duration: "
      ++ formatDuration v) ∧
    (d.set v).err = some ("cannot set " ++ key ++ " to a negative duration: "
      ++ formatDuration v) ∧
    (∀ (d2 : DurationSetting) (g : Int → Option GoError) (w : Int) (e : GoError),
      d2.validateFn = some g → g w = some e → (d2.set w).err = some e) := by
  obtain ⟨hvf, hd⟩ := registerValidated_ok_elim key desc dv _ d hreg
  subst hd
  have hval : DurationSetting.Validate
      { key := key, description := desc, onChange := false, defaultValue := dv,
        v := dv, validateFn := some fun w =>
          if w < 0 then
            some ("cannot set " ++ key ++ " to a negative duration: " ++ formatDuration w)
          else
            none } v =
      some ("cannot set " ++ key ++ " to a negative duration: " ++ formatDuration v) := by
    show (if v < 0 then some ("cannot set " ++ key
      ++ " to a negative duration: " ++ formatDuration v) else none) = some _
    rw [if_pos hv]
  refine ⟨hval, ?_, ?_⟩
  · rw [set_of_rejected _ v _ hval]
  · intro d2 g w e hg he
    have hval2 : d2.Validate w = some e := by
      unfold DurationSetting.Validate
      rw [hg]
      exact he
    rw [set_of_rejected d2 w e hval2]

/-- Witness for C8 (amended) at the concrete non-negative setting, v = -1. -/
theorem nonneg_error_carries_key_and_value_witness :
    testNonneg.Validate (-1) = some ("cannot set " ++ "srv.timeout"
      ++ " to a negative duration: " ++ formatDuration (-1)) ∧
    (testNonneg.set (-1)).err = some ("cannot set " ++ "srv.timeout"
      ++ " to a negative duration: " ++ formatDuration (-1)) ∧
    (∀ (d2 : DurationSetting) (g : Int → Option GoError) (w : Int) (e : GoError),
      d2.validateFn = some g → g w = some e → (d2.set w).err = some e) :=
  nonneg_error_carries_key_and_value "srv.timeout" "desc" oneSecond testNonneg rfl
    (-1) (by decide)
